import Mathlib

/-!
Verification of the Honda OBD1 bridge (hobd_uni2.cpp / hobd_uni2.hpp / main.cpp).

Shallow embedding conventions:
* `uint8_t` values are `Nat` kept below 256 by explicit `% 256` where the C code
  casts; wider machine integers are `Nat`/`Int` with explicit wrapping where it
  can matter.
* C `float`/`double` arithmetic is modelled as exact rational arithmetic (`ℚ`)
  with decimal literals read exactly; a float stored into an `int` field is
  truncated toward zero (`ratTrunc`), matching the C conversion.
* The half-duplex serial channel is modelled by an explicit trace: the bytes
  written by the device appear in `ECU.txLog` (one entry per transmitted frame),
  and the bytes read are supplied as a list of poll events
  (`none` = `dlc.available()` was false at that poll, `some b` = a byte was
  read).  The busy-poll receive loop of `sendcmd` does not terminate when the
  channel never delivers enough bytes; a run of `sendcmd` that would spin
  forever is represented by the result `none` (divergence), while `some` is a
  terminating run.
* Fixed C arrays with a separate length counter are modelled by lists: `Errs`
  is the error log (the C counter `errLen` is its length), `dtcErrs` is the
  14-entry DTC array, `dlcData` the 20-byte receive buffer.
-/

/-- `#define MSG_OFFSET 3` -/
def MSG_OFFSET : Nat := 3

/-- `#define RPL_OFFSET 2` -/
def RPL_OFFSET : Nat := 2

/-- `#define DataLen 20` (size of `dlcData`) -/
def DataLen : Nat := 20

/-- `#define HOBD_CMD 0x20` -/
def HOBD_CMD : Nat := 0x20

/-- `#define HOBD_RST 0x21` -/
def HOBD_RST : Nat := 0x21

def HOBD_OFF_RPM : Nat := 0x00
def HOBD_OFF_VSS : Nat := 0x02
def HOBD_OFF_FLAG_08 : Nat := 0x08
def HOBD_OFF_FLAG_0B : Nat := 0x0B
def HOBD_OFF_ECT : Nat := 0x10
def HOBD_OFF_IAT : Nat := 0x11
def HOBD_OFF_MAP : Nat := 0x12
def HOBD_OFF_TPS : Nat := 0x14
def HOBD_OFF_O2 : Nat := 0x15
def HOBD_OFF_VOLT : Nat := 0x15
def HOBD_OFF_ALTF : Nat := 0x18
def HOBD_OFF_EL : Nat := 0x19
def HOBD_OFF_ERRORS1 : Nat := 0x40

def HOBD_FLG_STARTER : Nat := 1 <<< 0
def HOBD_FLG_AC_SWITCH : Nat := 1 <<< 1
def HOBD_FLG_BRAKE : Nat := 1 <<< 3
def HOBD_FLG_VTEC_PRESS : Nat := 1 <<< 7
def HOBD_FLG_MAIN_RELAY : Nat := 1 <<< 0
def HOBD_FLG_CEL : Nat := 1 <<< 5

/-- `enum ErrCodes { ChecksumErr, TimeoutErr, DTCErr }` -/
inductive ErrCodes where
  | ChecksumErr
  | TimeoutErr
  | DTCErr
deriving DecidableEq

/-- `struct EcuCmd` (the `crc` member is computed by `sendcmd`, not supplied,
so it is kept out of the record and appears in the transmitted frame). -/
structure EcuCmd where
  cmd : Nat
  txlen : Nat
  reg : Nat
  rxlen : Nat
deriving DecidableEq

/-- The mutable session state of `class ECUData`, together with the model of
the half-duplex wire (`txLog`: frames written to `dlc`, most recent last). -/
structure ECU where
  dlcData : List Nat
  dtcErrs : List Nat
  Errs : List ErrCodes
  dtcLen : Nat
  dlctmo : Nat
  rpm : Int
  ect : Int
  iat : Int
  maps : Int
  baro : Int
  tps : Int
  sft : Int
  lft : Int
  inj : Int
  ign : Int
  lmt : Int
  iacv : Int
  knoc : Int
  maf : Int
  volt : ℚ
  o2 : ℚ
  vss : Nat
  alt_fr : ℚ
  eld : ℚ
  main_relay : Bool
  cel : Bool
  sw_aircon : Bool
  sw_brake : Bool
  sw_vtec : Bool
  sw_starter : Bool
  obd_sel : Nat
  txLog : List (List Nat)
deriving DecidableEq

/-- The field initializers of `ECUData` (constructed with `obd_sel = 1` as in
`main.cpp`). -/
def initECU : ECU where
  dlcData := List.replicate DataLen 0
  dtcErrs := List.replicate 14 0
  Errs := []
  dtcLen := 0
  dlctmo := 0
  rpm := 0
  ect := 0
  iat := 0
  maps := 0
  baro := 0
  tps := 0
  sft := 0
  lft := 0
  inj := 0
  ign := 0
  lmt := 0
  iacv := 0
  knoc := 0
  maf := 0
  volt := 0
  o2 := 0
  vss := 0
  alt_fr := 0
  eld := 0
  main_relay := false
  cel := false
  sw_aircon := false
  sw_brake := false
  sw_vtec := false
  sw_starter := false
  obd_sel := 1
  txLog := []

/-- `ECUData::mkcrc`: sum the bytes in a `uint8_t` accumulator, then return
`(uint8_t)(0xFF - (crc - 1))` (the subtraction is done in `int`). -/
def mkcrc (buf : List Nat) : Nat :=
  let crc : Nat := buf.foldl (fun c b => (c + b) % 256) 0
  (((0xFF : Int) - ((crc : Int) - 1)) % 256).toNat

/-- Modelled from the spec (§4.1), for comparison with `mkcrc`:
"sum all bytes modulo 256 into `s`, return `0xFF - (s - 1) mod 256`". -/
def checksum_spec (bytes : List Nat) : Nat :=
  (((0xFF : Int) - (((bytes.sum % 256 : Nat) : Int) - 1)) % 256).toNat

/-- The inline checksum expression of `sendcmd`:
`(uint8_t)(0xFF - (ecmd.cmd + ecmd.txlen + ecmd.reg + ecmd.rxlen - 0x01))`,
computed in `int` and truncated to a byte. -/
def txCrc (e : EcuCmd) : Nat :=
  (((0xFF : Int) -
      ((e.cmd : Int) + (e.txlen : Int) + (e.reg : Int) + (e.rxlen : Int) - 0x01)) % 256).toNat

/-- The 5-byte TX frame `[cmd, txlen, reg, rxlen, crc]` built by `sendcmd`. -/
def txFrame (e : EcuCmd) : List Nat :=
  [e.cmd, e.txlen, e.reg, e.rxlen, txCrc e]

/-- The busy-poll receive loop of `sendcmd`:
`while (i < expected) { if (dlc.available()) dlcData[i++] = (uint8_t)dlc.read(); }`.
The commented-out wall-clock condition `(millis() - tStart) < timeoutMs` is not
part of the guard.  `polls` is the finite trace of poll events; if it is
exhausted before `expected` bytes arrive, the C loop spins forever, modelled by
`none`. -/
def recvLoop (expected : Nat) : List (Option Nat) → List Nat → Option (List Nat)
  | polls, acc =>
    if expected ≤ acc.length then some acc
    else
      match polls with
      | [] => none
      | none :: rest => recvLoop expected rest acc
      | some b :: rest => recvLoop expected rest (acc ++ [b % 256])

/-- `ECUData::sendcmd`: clear `dlcData`, transmit the 5-byte frame, busy-poll
for `rxlen + MSG_OFFSET` bytes, then take the dead timeout branch if fewer
arrived, else verify the trailing checksum.  `none` models the non-terminating
run in which the channel never delivers `expected` bytes. -/
def sendcmd (st : ECU) (ecmd : EcuCmd) (polls : List (Option Nat)) :
    Option (ECU × Bool) :=
  let st1 := { st with txLog := st.txLog ++ [txFrame ecmd] }
  let expected := ecmd.rxlen + MSG_OFFSET
  match recvLoop expected polls [] with
  | none => none
  | some data =>
    let st2 := { st1 with dlcData := data ++ List.replicate (DataLen - expected) 0 }
    if data.length < expected then
      some ({ st2 with dlctmo := st2.dlctmo + 1,
                       Errs := st2.Errs ++ [ErrCodes.TimeoutErr] }, false)
    else
      let rxCrc := data.getD (expected - 1) 0
      let calcCrc := mkcrc (data.take (expected - 1))
      if calcCrc ≠ rxCrc then
        some ({ st2 with Errs := st2.Errs ++ [ErrCodes.ChecksumErr] }, false)
      else
        some (st2, true)

/-- Truncation toward zero, the C `float`-to-`int` conversion. -/
def ratTrunc (q : ℚ) : Int :=
  q.num.tdiv q.den

/-- `rx_u16`: `(uint16_t)(buffer[offset] << 8 | buffer[offset + 1])`. -/
def rx_u16 (buffer : List Nat) (offset : Nat) : Nat :=
  ((buffer.getD offset 0) <<< 8 ||| buffer.getD (offset + 1) 0) % 65536

/-- The degree-5 thermistor polynomial `cnvt_tmp` (float literals read as the
exact decimal rationals they are written as). -/
def cnvt_tmp (f : ℚ) : ℚ :=
  55.04149 - f * 3.0414878 + f ^ 2 * 0.03952185 - f ^ 3 * 0.00029383913 +
    f ^ 4 * 0.0000010792568 - f ^ 5 * 0.0000000015618437

/-- The `conv_kpa` lambda of `readLiveData`: `v * 0.716f - 5.0f`. -/
def conv_kpa (v : Nat) : ℚ :=
  (v : ℚ) * 0.716 - 5.0

/-- The command built for each row of `readLiveData` and for `scanDtc`:
`cmd = HOBD_CMD, txlen = 0x05, rxlen = 0x10`, register as given. -/
def rowCmd (reg : Nat) : EcuCmd :=
  { cmd := HOBD_CMD, txlen := 0x05, reg := reg, rxlen := 0x10 }

/-- Row 1 decoding (`reg 0x00`) of `readLiveData`: RPM word, VSS byte, and the
two flag bytes.  The RPM formula is applied only when `obd_sel == 1`; the
clamp `if (rpm < 0) rpm = 0` is applied unconditionally. -/
def decodeRow1 (st : ECU) : ECU :=
  let rawRpm := rx_u16 st.dlcData (RPL_OFFSET + HOBD_OFF_RPM)
  let rpm1 : Int :=
    if st.obd_sel = 1 then ratTrunc ((1875000 : ℚ) / ((rawRpm : ℚ) + 1)) else st.rpm
  let rpm2 : Int := if rpm1 < 0 then 0 else rpm1
  let f08 := st.dlcData.getD (RPL_OFFSET + HOBD_OFF_FLAG_08) 0
  let f0B := st.dlcData.getD (RPL_OFFSET + HOBD_OFF_FLAG_0B) 0
  { st with
    rpm := rpm2
    vss := st.dlcData.getD (RPL_OFFSET + HOBD_OFF_VSS) 0
    sw_aircon := f08 &&& HOBD_FLG_AC_SWITCH != 0
    sw_brake := f08 &&& HOBD_FLG_BRAKE != 0
    sw_starter := f08 &&& HOBD_FLG_STARTER != 0
    sw_vtec := f08 &&& HOBD_FLG_VTEC_PRESS != 0
    main_relay := f0B &&& HOBD_FLG_MAIN_RELAY != 0
    cel := f0B &&& HOBD_FLG_CEL != 0 }

/-- Row 2 decoding (`reg 0x10`): temperatures, pressures, TPS, O2, battery
voltage, alternator field, electrical load.  `int`-typed fields truncate. -/
def decodeRow2 (st : ECU) : ECU :=
  { st with
    ect := ratTrunc (cnvt_tmp (st.dlcData.getD RPL_OFFSET 0))
    iat := ratTrunc (cnvt_tmp (st.dlcData.getD (RPL_OFFSET + HOBD_OFF_IAT - HOBD_OFF_ECT) 0))
    maps := ratTrunc (conv_kpa (st.dlcData.getD (RPL_OFFSET + HOBD_OFF_MAP - HOBD_OFF_ECT) 0))
    baro := ratTrunc (conv_kpa (st.dlcData.getD (RPL_OFFSET + HOBD_OFF_MAP + 1 - HOBD_OFF_ECT) 0))
    tps := ((st.dlcData.getD (RPL_OFFSET + HOBD_OFF_TPS - HOBD_OFF_ECT) 0 : Int) - 24).tdiv 2
    o2 := (st.dlcData.getD (RPL_OFFSET + HOBD_OFF_O2 - HOBD_OFF_ECT) 0 : ℚ) / 51.3
    volt := (st.dlcData.getD (RPL_OFFSET + HOBD_OFF_VOLT - HOBD_OFF_ECT) 0 : ℚ) / 10.45
    alt_fr := (st.dlcData.getD (RPL_OFFSET + HOBD_OFF_ALTF - HOBD_OFF_ECT) 0 : ℚ) / 2.55
    eld := 77.06 - (st.dlcData.getD (RPL_OFFSET + HOBD_OFF_EL - HOBD_OFF_ECT) 0 : ℚ) / 2.5371 }

/-- Row 3 decoding (`reg 0x20`): fuel trims, injector pulse width (word at
payload offset 4), ignition/limiter from absolute indices 8 and 9, IACV. -/
def decodeRow3 (st : ECU) : ECU :=
  let sft_raw := st.dlcData.getD RPL_OFFSET 0
  let lft_raw := st.dlcData.getD (RPL_OFFSET + 1) 0
  let injRaw := rx_u16 st.dlcData (RPL_OFFSET + 4)
  { st with
    sft := ratTrunc (((sft_raw : ℚ) / 128.0 - 1.0) * 100.0)
    lft := ratTrunc (((lft_raw : ℚ) / 128.0 - 1.0) * 100.0)
    inj := ratTrunc ((injRaw : ℚ) / 250.0)
    ign := ratTrunc (((st.dlcData.getD 8 0 : ℚ) - 24) / 4)
    lmt := ratTrunc (((st.dlcData.getD 9 0 : ℚ) - 24) / 4)
    iacv := ratTrunc ((st.dlcData.getD 10 0 : ℚ) / 2.55) }

/-- Row 4 decoding (`reg 0x30`): `knoc = dlcData[14] / 51` (integer division). -/
def decodeRow4 (st : ECU) : ECU :=
  { st with knoc := (st.dlcData.getD 14 0 / 51 : Nat) }

/-- The derived MAF computation at the end of `readLiveData`:
`int imap = rpm * maps / (iat + 273) / 2;` (all `int`, truncating division) and
`maf = (imap / 60) * (80 / 100) * 1.595 * 28.9644 / 8.314472;` where
`80 / 100` is an integer division. -/
def computeMaf (st : ECU) : ECU :=
  let imap : Int := ((st.rpm * st.maps).tdiv (st.iat + 273)).tdiv 2
  { st with
    maf := ratTrunc (((imap.tdiv 60 * (80 : Int).tdiv 100 : Int) : ℚ)
                      * 1.595 * 28.9644 / 8.314472) }

/-- `ECUData::readLiveData`: four fixed transactions (registers 0x00, 0x10,
0x20, 0x30, each with `rxlen = 0x10`), decoding each row on success and
returning failure immediately when a transaction fails; the MAF derivation
runs only after all four rows succeed. -/
def readLiveData (st : ECU) (p1 p2 p3 p4 : List (Option Nat)) :
    Option (ECU × Bool) :=
  match sendcmd st (rowCmd HOBD_OFF_RPM) p1 with
  | none => none
  | some (s, false) => some (s, false)
  | some (s, true) =>
    let s := decodeRow1 s
    match sendcmd s (rowCmd HOBD_OFF_ECT) p2 with
    | none => none
    | some (s, false) => some (s, false)
    | some (s, true) =>
      let s := decodeRow2 s
      match sendcmd s (rowCmd 0x20) p3 with
      | none => none
      | some (s, false) => some (s, false)
      | some (s, true) =>
        let s := decodeRow3 s
        match sendcmd s (rowCmd 0x30) p4 with
        | none => none
        | some (s, false) => some (s, false)
        | some (s, true) =>
          let s := decodeRow4 s
          some (computeMaf s, true)

/-- One iteration of the `scanDtc` decoding loop at byte index `i`
(`0 ≤ i < 14`), reading `dlcData[i + 2]`: a non-zero high nibble writes
`dtcErrs[i] = i * 2`; a non-zero low nibble then writes
`dtcErrs[i] = i * 2 + 1` with the 23→22 and 24→23 corrections applied to the
just-written value; each write also increments `dtcLen`. -/
def dtcStep (st : ECU) (i : Nat) : ECU :=
  let b := st.dlcData.getD (i + 2) 0
  let st1 :=
    if b >>> 4 ≠ 0 then
      { st with dtcErrs := st.dtcErrs.set i (i * 2), dtcLen := st.dtcLen + 1 }
    else st
  if b &&& 0xf ≠ 0 then
    let v1 := i * 2 + 1
    let v2 := if v1 = 23 then 22 else v1
    let v3 := if v2 = 24 then 23 else v2
    { st1 with dtcErrs := st1.dtcErrs.set i v3, dtcLen := st1.dtcLen + 1 }
  else st1

/-- `ECUData::scanDtc`: reset `dtcLen`, run one transaction at register 0x40
(`rxlen = 0x10`), then decode payload bytes 2..15 with `dtcStep`. -/
def scanDtc (st : ECU) (polls : List (Option Nat)) : Option (ECU × Bool) :=
  let st0 := { st with dtcLen := 0 }
  match sendcmd st0 (rowCmd HOBD_OFF_ERRORS1) polls with
  | none => none
  | some (s, false) => some (s, false)
  | some (s, true) => some ((List.range 14).foldl dtcStep s, true)

/-- `SOF1 = 0xAA` -/
def SOF1 : Nat := 0xAA

/-- `SOF2 = 0x55` -/
def SOF2 : Nat := 0x55

/-- `sendFrame` of `main.cpp`: the bytes written to the host link for one
outbound frame.  The checksum accumulator is a `uint8_t`:
`crc += mkcrc(header, 4); crc += mkcrc(payload, len);`. -/
def sendFrame (type : Nat) (payload : List Nat) : List Nat :=
  let header := [SOF1, SOF2, type, payload.length]
  let crc := ((0 + mkcrc header) % 256 + mkcrc payload) % 256
  header ++ payload ++ [crc % 256]

/-! ### Helper lemmas -/

theorem foldl_add_mod (l : List Nat) :
    ∀ c : Nat, l.foldl (fun a b => (a + b) % 256) (c % 256) = (c + l.sum) % 256 := by
  induction l with
  | nil => intro c; simp
  | cons b t ih =>
    intro c
    have h1 : (c % 256 + b) % 256 = (c + b) % 256 := by omega
    calc (b :: t).foldl (fun a b => (a + b) % 256) (c % 256)
        = t.foldl (fun a b => (a + b) % 256) ((c + b) % 256) := by
          simp [List.foldl_cons, h1]
      _ = ((c + b) + t.sum) % 256 := ih (c + b)
      _ = (c + (b :: t).sum) % 256 := by simp [List.sum_cons]; ring_nf

theorem mkcrc_sum (buf : List Nat) :
    mkcrc buf = (((0xFF : Int) - (((buf.sum % 256 : Nat) : Int) - 1)) % 256).toNat := by
  unfold mkcrc
  have h := foldl_add_mod buf 0
  simp only [Nat.zero_mod, Nat.zero_add] at h
  rw [h]

theorem emod_sub_shift (s : Nat) :
    ((0xFF : Int) - ((s : Int) - 1)) % 256 =
      ((0xFF : Int) - (((s % 256 : Nat) : Int) - 1)) % 256 := by
  have hcast : ((s % 256 : Nat) : Int) = (s : Int) % 256 := by push_cast; ring
  rw [hcast]
  have h1 : (0xFF : Int) - ((s : Int) - 1) = 256 - (s : Int) := by ring
  have h2 : (0xFF : Int) - ((s : Int) % 256 - 1) = 256 - (s : Int) % 256 := by ring
  rw [h1, h2, Int.sub_emod 256 (s : Int) 256,
    Int.sub_emod 256 ((s : Int) % 256) 256,
    Int.emod_emod_of_dvd (s : Int) (dvd_refl 256)]

theorem recvLoop_length (expected : Nat) :
    ∀ (polls : List (Option Nat)) (acc data : List Nat),
      recvLoop expected polls acc = some data → acc.length ≤ expected →
      data.length = expected := by
  intro polls
  induction polls with
  | nil =>
    intro acc data h hle
    unfold recvLoop at h
    by_cases hc : expected ≤ acc.length
    · rw [if_pos hc] at h
      cases h
      omega
    · rw [if_neg hc] at h
      cases h
  | cons p rest ih =>
    intro acc data h hle
    unfold recvLoop at h
    by_cases hc : expected ≤ acc.length
    · rw [if_pos hc] at h
      cases h
      omega
    · rw [if_neg hc] at h
      cases p with
      | none => exact ih acc data h hle
      | some b =>
        refine ih (acc ++ [b % 256]) data h ?_
        simp only [List.length_append, List.length_cons, List.length_nil]
        omega

theorem recvLoop_bytes_lt (expected : Nat) :
    ∀ (polls : List (Option Nat)) (acc data : List Nat),
      recvLoop expected polls acc = some data → (∀ x ∈ acc, x < 256) →
      ∀ x ∈ data, x < 256 := by
  intro polls
  induction polls with
  | nil =>
    intro acc data h hlt
    unfold recvLoop at h
    by_cases hc : expected ≤ acc.length
    · rw [if_pos hc] at h; cases h; exact hlt
    · rw [if_neg hc] at h; cases h
  | cons p rest ih =>
    intro acc data h hlt
    unfold recvLoop at h
    by_cases hc : expected ≤ acc.length
    · rw [if_pos hc] at h; cases h; exact hlt
    · rw [if_neg hc] at h
      cases p with
      | none => exact ih acc data h hlt
      | some b =>
        refine ih (acc ++ [b % 256]) data h ?_
        intro x hx
        rcases List.mem_append.mp hx with hx | hx
        · exact hlt x hx
        · simp only [List.mem_singleton] at hx
          subst hx
          omega

/-- Full case analysis of a terminating `sendcmd` run: exactly `expected`
bytes are always collected (so the timeout branch never executes), and the
outcome is decided solely by the trailing-checksum comparison. -/
theorem sendcmd_cases {st : ECU} {ecmd : EcuCmd} {polls : List (Option Nat)}
    {st' : ECU} {b : Bool} (h : sendcmd st ecmd polls = some (st', b)) :
    ∃ data, recvLoop (ecmd.rxlen + MSG_OFFSET) polls [] = some data ∧
      data.length = ecmd.rxlen + MSG_OFFSET ∧
      ((b = true ∧
         mkcrc (data.take (ecmd.rxlen + MSG_OFFSET - 1)) =
           data.getD (ecmd.rxlen + MSG_OFFSET - 1) 0 ∧
         st' = { st with
                  txLog := st.txLog ++ [txFrame ecmd],
                  dlcData := data ++
                    List.replicate (DataLen - (ecmd.rxlen + MSG_OFFSET)) 0 }) ∨
       (b = false ∧
         mkcrc (data.take (ecmd.rxlen + MSG_OFFSET - 1)) ≠
           data.getD (ecmd.rxlen + MSG_OFFSET - 1) 0 ∧
         st' = { st with
                  txLog := st.txLog ++ [txFrame ecmd],
                  dlcData := data ++
                    List.replicate (DataLen - (ecmd.rxlen + MSG_OFFSET)) 0,
                  Errs := st.Errs ++ [ErrCodes.ChecksumErr] })) := by
  simp only [sendcmd] at h
  split at h
  next hr => simp at h
  next data hr =>
    have hlen : data.length = ecmd.rxlen + MSG_OFFSET :=
      recvLoop_length _ polls [] data hr (by simp)
    refine ⟨data, hr, hlen, ?_⟩
    rw [if_neg (by omega)] at h
    by_cases hcrc : mkcrc (data.take (ecmd.rxlen + MSG_OFFSET - 1)) =
        data.getD (ecmd.rxlen + MSG_OFFSET - 1) 0
    · rw [if_neg (by simpa using hcrc)] at h
      simp only [Option.some.injEq, Prod.mk.injEq] at h
      obtain ⟨h1, h2⟩ := h
      subst h1
      subst h2
      exact Or.inl ⟨rfl, hcrc, rfl⟩
    · rw [if_pos (by simpa using hcrc)] at h
      simp only [Option.some.injEq, Prod.mk.injEq] at h
      obtain ⟨h1, h2⟩ := h
      subst h1
      subst h2
      exact Or.inr ⟨rfl, hcrc, rfl⟩

theorem mkcrc_lt (buf : List Nat) : mkcrc buf < 256 := by
  rw [mkcrc_sum]
  have h1 : ((0xFF : Int) - (((buf.sum % 256 : Nat) : Int) - 1)) % 256 < 256 :=
    Int.emod_lt_of_pos _ (by norm_num)
  omega

theorem mkcrc_append (l1 l2 : List Nat) :
    (mkcrc l1 + mkcrc l2) % 256 = mkcrc (l1 ++ l2) := by
  rw [mkcrc_sum, mkcrc_sum, mkcrc_sum, List.sum_append]
  omega

/-- The command issued by `resetEcu` (`HOBD_RST`, `txlen 4`, `reg 1`,
`rxlen 0`), used as a concrete instance in several witnesses. -/
def cmdRst : EcuCmd :=
  { cmd := HOBD_RST, txlen := 0x04, reg := 0x01, rxlen := 0x00 }

/-- A 3-poll trace delivering a valid `rxlen = 0` reply `[0, 0, 0]`
(`mkcrc [0, 0] = 0`). -/
def pollsOk3 : List (Option Nat) := [some 0, some 0, some 0]

/-- A poll trace delivering `[0, 0, 9]`, whose trailing byte does not match
`mkcrc [0, 0] = 0`. -/
def pollsBad3 : List (Option Nat) := [some 0, none, some 0, some 9]

/-- The state after the failing run `sendcmd initECU cmdRst pollsBad3`. -/
def sBadW : ECU :=
  match sendcmd initECU cmdRst pollsBad3 with
  | some r => r.1
  | none => initECU

/-- The result of the succeeding run `sendcmd initECU cmdRst pollsOk3`. -/
def outRstOk : ECU × Bool :=
  match sendcmd initECU cmdRst pollsOk3 with
  | some r => r
  | none => (initECU, false)

/-- C1: a terminating receive loop always collects exactly `expected =
rxLength + 3` bytes (its guard tests only the byte count; the start time is
never compared against the 200 ms timeout), so the post-loop timeout branch is
unreachable: a terminating `sendcmd` never increments the timeout counter and
never records `TimeoutErr` — at most a `ChecksumErr` is appended — for every
command. -/
theorem C1_sendcmd_never_times_out :
    (∀ (expected : Nat) (polls : List (Option Nat)) (data : List Nat),
      recvLoop expected polls [] = some data → data.length = expected) ∧
    (∀ (st : ECU) (ecmd : EcuCmd) (polls : List (Option Nat)) (st' : ECU) (b : Bool),
      sendcmd st ecmd polls = some (st', b) →
        st'.dlctmo = st.dlctmo ∧
        ∀ e ∈ st'.Errs, e ∈ st.Errs ∨ e = ErrCodes.ChecksumErr) := by
  constructor
  · intro expected polls data h
    exact recvLoop_length expected polls [] data h (by simp)
  · intro st ecmd polls st' b h
    obtain ⟨data, _, hlen, hcase⟩ := sendcmd_cases h
    rcases hcase with ⟨_, _, h3⟩ | ⟨_, _, h3⟩ <;> subst h3
    · exact ⟨rfl, fun e he => Or.inl he⟩
    · refine ⟨rfl, fun e he => ?_⟩
      rcases List.mem_append.mp he with he | he
      · exact Or.inl he
      · simp only [List.mem_singleton] at he
        exact Or.inr he

/-- Witness for C1 at a concrete failing transaction (`[0, 0, 9]` reply to
the reset command): the loop collected exactly 3 bytes and the timeout
counter is untouched. -/
theorem C1_sendcmd_never_times_out_witness :
    ([0, 0, 9] : List Nat).length = cmdRst.rxlen + MSG_OFFSET ∧
    sBadW.dlctmo = initECU.dlctmo :=
  ⟨C1_sendcmd_never_times_out.1 (cmdRst.rxlen + MSG_OFFSET) pollsBad3 [0, 0, 9] (by rfl),
   (C1_sendcmd_never_times_out.2 initECU cmdRst pollsBad3 sBadW false (by rfl)).1⟩

/-- C3: `mkcrc` computes exactly the §4.1 formula
`0xFF - ((sum mod 256) - 1) mod 256` (pure, as a function of the bytes); every
terminating `sendcmd` transmits exactly the 5-byte frame
`[opcode, txLength, registerAddress, rxLength, crc]`, and its fifth byte — the
inline checksum expression — equals `mkcrc` applied to the first four bytes. -/
theorem C3_checksum_formula :
    (∀ bytes : List Nat, mkcrc bytes = checksum_spec bytes) ∧
    (∀ (st : ECU) (ecmd : EcuCmd) (polls : List (Option Nat)) (out : ECU × Bool),
      sendcmd st ecmd polls = some out →
        out.1.txLog = st.txLog ++ [txFrame ecmd]) ∧
    (∀ e : EcuCmd, (txFrame e).length = 5 ∧
      (txFrame e).getD 4 0 = mkcrc ((txFrame e).take 4)) := by
  refine ⟨fun bytes => ?_, fun st ecmd polls out h => ?_, fun e => ⟨rfl, ?_⟩⟩
  · rw [mkcrc_sum]
    rfl
  · obtain ⟨st', b⟩ := out
    obtain ⟨data, _, _, hcase⟩ := sendcmd_cases h
    rcases hcase with ⟨_, _, h3⟩ | ⟨_, _, h3⟩ <;> subst h3 <;> rfl
  · show txCrc e = mkcrc [e.cmd, e.txlen, e.reg, e.rxlen]
    rw [mkcrc_sum]
    unfold txCrc
    have h := emod_sub_shift ([e.cmd, e.txlen, e.reg, e.rxlen].sum)
    have hs : (([e.cmd, e.txlen, e.reg, e.rxlen].sum : Nat) : Int) =
        (e.cmd : Int) + (e.txlen : Int) + (e.reg : Int) + (e.rxlen : Int) := by
      simp [List.sum_cons]
      ring
    rw [hs] at h
    rw [h]

/-- Witness for C3: concrete transmitted frame for the reset command, and the
formula instance on a sample byte list. -/
theorem C3_checksum_formula_witness :
    outRstOk.1.txLog = initECU.txLog ++ [txFrame cmdRst] ∧
    (txFrame cmdRst).getD 4 0 = mkcrc ((txFrame cmdRst).take 4) ∧
    mkcrc [1, 2, 3] = checksum_spec [1, 2, 3] :=
  ⟨C3_checksum_formula.2.1 initECU cmdRst pollsOk3 outRstOk (by rfl),
   (C3_checksum_formula.2.2 cmdRst).2,
   C3_checksum_formula.1 [1, 2, 3]⟩

/-- C4: once `rxLength + 3` bytes are collected, `sendcmd` succeeds exactly
when `mkcrc` of bytes `0 .. expected-2` equals the final byte: on success it
returns with only `dlcData` (and the wire log) changed — no interpretation of
the payload — and on mismatch it appends `ChecksumErr` and returns failure. -/
theorem C4_checksum_gate (st : ECU) (ecmd : EcuCmd) (polls : List (Option Nat))
    (data : List Nat)
    (h : recvLoop (ecmd.rxlen + MSG_OFFSET) polls [] = some data) :
    (mkcrc (data.take (ecmd.rxlen + MSG_OFFSET - 1)) =
        data.getD (ecmd.rxlen + MSG_OFFSET - 1) 0 →
      sendcmd st ecmd polls =
        some ({ st with
                 txLog := st.txLog ++ [txFrame ecmd],
                 dlcData := data ++
                   List.replicate (DataLen - (ecmd.rxlen + MSG_OFFSET)) 0 }, true)) ∧
    (mkcrc (data.take (ecmd.rxlen + MSG_OFFSET - 1)) ≠
        data.getD (ecmd.rxlen + MSG_OFFSET - 1) 0 →
      sendcmd st ecmd polls =
        some ({ st with
                 txLog := st.txLog ++ [txFrame ecmd],
                 dlcData := data ++
                   List.replicate (DataLen - (ecmd.rxlen + MSG_OFFSET)) 0,
                 Errs := st.Errs ++ [ErrCodes.ChecksumErr] }, false)) := by
  have hlen : data.length = ecmd.rxlen + MSG_OFFSET :=
    recvLoop_length _ polls [] data h (by simp)
  constructor
  · intro hcrc
    simp only [sendcmd, h]
    rw [if_neg (by omega)]
    rw [if_neg (by simpa using hcrc)]
  · intro hcrc
    simp only [sendcmd, h]
    rw [if_neg (by omega)]
    rw [if_pos (by simpa using hcrc)]

/-- Witness for C4: the concrete 3-byte reply `[0, 0, 0]` has a matching
trailing checksum and yields success with no field but `dlcData`/`txLog`
touched. -/
theorem C4_checksum_gate_witness :
    sendcmd initECU cmdRst pollsOk3 =
      some ({ initECU with
               txLog := initECU.txLog ++ [txFrame cmdRst],
               dlcData := [0, 0, 0] ++
                 List.replicate (DataLen - (cmdRst.rxlen + MSG_OFFSET)) 0 }, true) :=
  (C4_checksum_gate initECU cmdRst pollsOk3 [0, 0, 0] (by rfl)).1 (by rfl)

/-- A session state that has already recorded 14 errors (the capacity of the
C array `Errs[14]`). -/
def st14 : ECU := { initECU with Errs := List.replicate 14 ErrCodes.ChecksumErr }

/-- The state after one more checksum-failing transaction from `st14`. -/
def s15 : ECU :=
  match sendcmd st14 cmdRst pollsBad3 with
  | some r => r.1
  | none => initECU

/-- Counterexample to C8: from a state with 14 recorded errors, one more
checksum-failing transaction pushes the error-log length to 15, so
`errLen ≤ 14` is not an invariant preserved by every transaction. -/
theorem C8_errlog_counterexample :
    sendcmd st14 cmdRst pollsBad3 = some (s15, false) ∧
    s15.Errs.length = 15 ∧ ¬ s15.Errs.length ≤ 14 := by
  refine ⟨rfl, rfl, by decide⟩

/-- C8 (amended): every failed terminating transaction appends exactly one
error, unconditionally — `errLen` grows by one with no bound check and is
never cleared, so after more than 14 recorded errors the index moves past the
14-entry `Errs` array instead of staying within it. -/
theorem C8_errlog_append_unbounded (st : ECU) (ecmd : EcuCmd)
    (polls : List (Option Nat)) (st' : ECU)
    (h : sendcmd st ecmd polls = some (st', false)) :
    st'.Errs.length = st.Errs.length + 1 := by
  obtain ⟨data, _, _, hcase⟩ := sendcmd_cases h
  rcases hcase with ⟨h1, _, _⟩ | ⟨_, _, h3⟩
  · cases h1
  · subst h3
    simp

/-- Witness for C8's amended statement at the concrete overflowing run. -/
theorem C8_errlog_append_unbounded_witness :
    s15.Errs.length = st14.Errs.length + 1 :=
  C8_errlog_append_unbounded st14 cmdRst pollsBad3 s15 (by rfl)

/-- Counterexample to C10's final clause: for the concrete ACK frame with
payload `[1]`, the trailing checksum byte is exactly one §4.1 checksum over
the concatenated header and payload — the "two independent checksums summed"
value does not differ from it. -/
theorem C10_host_frame_counterexample :
    (sendFrame 0x83 [1]).getD 5 0 = mkcrc ([0xAA, 0x55, 0x83, 1] ++ [1]) := by
  decide

/-- C10 (amended): every outbound host frame is
`[0xAA, 0x55, type, length, payload..., checksum]` with
`checksum = (mkcrc header + mkcrc payload) mod 256`; since
`mkcrc x = (-sum x) mod 256` is additive up to negation, this value always
coincides with the single checksum `mkcrc (header ++ payload)`, so the "not
one checksum over the concatenation" distinction is vacuous. -/
theorem C10_host_frame_layout (type : Nat) (payload : List Nat) :
    sendFrame type payload =
      [SOF1, SOF2, type, payload.length] ++ payload ++
        [(mkcrc [SOF1, SOF2, type, payload.length] + mkcrc payload) % 256] ∧
    (mkcrc [SOF1, SOF2, type, payload.length] + mkcrc payload) % 256 =
      mkcrc ([SOF1, SOF2, type, payload.length] ++ payload) := by
  constructor
  · have h1 : mkcrc [SOF1, SOF2, type, payload.length] < 256 := mkcrc_lt _
    have h2 : mkcrc payload < 256 := mkcrc_lt _
    simp only [sendFrame]
    congr 2
    omega
  · exact mkcrc_append _ _

theorem getD_set_ne (l : List Nat) (i j a : Nat) (h : i ≠ j) :
    (l.set i a).getD j 0 = l.getD j 0 := by
  simp [List.getD_eq_getElem?_getD, List.getElem?_set_ne h]

theorem getD_set_self (l : List Nat) (i a : Nat) (h : i < l.length) :
    (l.set i a).getD i 0 = a := by
  simp [List.getD_eq_getElem?_getD, List.getElem?_set_self', List.getElem?_eq_getElem h]

/-- The net value left in `dtcErrs[i]` by one `dtcStep` at byte `b`: a
non-zero low nibble wins (it is written second and overwrites the high-nibble
write), else a non-zero high nibble stores `2 i`, else the entry is left
alone. -/
def dtcWrite (b i old : Nat) : Nat :=
  if b &&& 0xf ≠ 0 then
    let v1 := i * 2 + 1
    let v2 := if v1 = 23 then 22 else v1
    if v2 = 24 then 23 else v2
  else if b >>> 4 ≠ 0 then i * 2 else old

theorem dtcStep_dlcData (st : ECU) (i : Nat) :
    (dtcStep st i).dlcData = st.dlcData := by
  simp only [dtcStep]
  by_cases hlow : st.dlcData.getD (i + 2) 0 &&& 0xf ≠ 0 <;>
    by_cases hhigh : st.dlcData.getD (i + 2) 0 >>> 4 ≠ 0
  · rw [if_pos hlow, if_pos hhigh]
  · rw [if_pos hlow, if_neg hhigh]
  · rw [if_neg hlow, if_pos hhigh]
  · rw [if_neg hlow, if_neg hhigh]

theorem dtcStep_dtcErrs_length (st : ECU) (i : Nat) :
    (dtcStep st i).dtcErrs.length = st.dtcErrs.length := by
  simp only [dtcStep]
  by_cases hlow : st.dlcData.getD (i + 2) 0 &&& 0xf ≠ 0 <;>
    by_cases hhigh : st.dlcData.getD (i + 2) 0 >>> 4 ≠ 0
  · rw [if_pos hlow, if_pos hhigh]
    simp
  · rw [if_pos hlow, if_neg hhigh]
    simp
  · rw [if_neg hlow, if_pos hhigh]
    simp
  · rw [if_neg hlow, if_neg hhigh]

theorem dtcStep_getD_ne (st : ECU) (i j : Nat) (h : i ≠ j) :
    (dtcStep st i).dtcErrs.getD j 0 = st.dtcErrs.getD j 0 := by
  simp only [dtcStep]
  by_cases hlow : st.dlcData.getD (i + 2) 0 &&& 0xf ≠ 0 <;>
    by_cases hhigh : st.dlcData.getD (i + 2) 0 >>> 4 ≠ 0
  · rw [if_pos hlow, if_pos hhigh]
    simp [List.getElem?_set_ne h]
  · rw [if_pos hlow, if_neg hhigh]
    simp [List.getElem?_set_ne h]
  · rw [if_neg hlow, if_pos hhigh]
    simp [List.getElem?_set_ne h]
  · rw [if_neg hlow, if_neg hhigh]

theorem dtcStep_getD_self (st : ECU) (i : Nat) (h : i < st.dtcErrs.length) :
    (dtcStep st i).dtcErrs.getD i 0 =
      dtcWrite (st.dlcData.getD (i + 2) 0) i (st.dtcErrs.getD i 0) := by
  have hset : ∀ a, (st.dtcErrs.set i a).getD i 0 = a := fun a =>
    getD_set_self _ _ _ h
  have hset2 : ∀ a b, ((st.dtcErrs.set i a).set i b).getD i 0 = b := fun a b =>
    getD_set_self _ _ _ (by simpa using h)
  simp only [dtcStep, dtcWrite]
  by_cases hlow : st.dlcData.getD (i + 2) 0 &&& 0xf ≠ 0 <;>
    by_cases hhigh : st.dlcData.getD (i + 2) 0 >>> 4 ≠ 0
  · rw [if_pos hlow, if_pos hhigh, if_pos hlow]
    simpa using hset2 (i * 2) _
  · rw [if_pos hlow, if_neg hhigh, if_pos hlow]
    simpa using hset _
  · rw [if_neg hlow, if_pos hhigh, if_neg hlow, if_pos hhigh]
    simpa using hset (i * 2)
  · rw [if_neg hlow, if_neg hhigh, if_neg hlow, if_neg hhigh]

/-- Characterization of the `scanDtc` decoding loop: after folding `dtcStep`
over byte indices `0 .. n-1`, entry `i` holds the `dtcWrite` value of byte
`i` when `i < n` and is untouched otherwise; `dlcData` and the array length
are preserved. -/
theorem dtcFoldAux (n : Nat) (st : ECU) (hlen : st.dtcErrs.length = 14) :
    ((List.range n).foldl dtcStep st).dlcData = st.dlcData ∧
    ((List.range n).foldl dtcStep st).dtcErrs.length = 14 ∧
    ∀ i, i < 14 →
      ((List.range n).foldl dtcStep st).dtcErrs.getD i 0 =
        if i < n then dtcWrite (st.dlcData.getD (i + 2) 0) i (st.dtcErrs.getD i 0)
        else st.dtcErrs.getD i 0 := by
  induction n with
  | zero => simpa using hlen
  | succ n ih =>
    obtain ⟨hd, hl, hg⟩ := ih
    rw [List.range_succ, List.foldl_append, List.foldl_cons, List.foldl_nil]
    refine ⟨by rw [dtcStep_dlcData, hd], by rw [dtcStep_dtcErrs_length, hl], ?_⟩
    intro i hi
    by_cases hin : i = n
    · subst hin
      rw [dtcStep_getD_self _ _ (by omega)]
      rw [hd, hg i hi, if_neg (by omega), if_pos (by omega)]
    · rw [dtcStep_getD_ne _ _ _ (fun hc => hin hc.symm), hg i hi]
      by_cases hlt : i < n
      · rw [if_pos hlt, if_pos (by omega)]
      · rw [if_neg hlt, if_neg (by omega)]

/-- C2 (amended): in `scanDtc`, a signaled low nibble of byte `i` stores
`2·i + 1` remapped through the 23→22 correction only (so code 23 is stored
as 22); a signaled high nibble stores `2·i` with no correction at all (so
code 24, the high nibble of byte 12, is stored unchanged as 24 — the 24→23
check sits in the low-nibble branch, where the computed code is always odd
and can never be 24); an unsignaled byte leaves the entry untouched. -/
theorem C2_dtc_remap (st : ECU) (polls : List (Option Nat)) (st' : ECU)
    (hlen : st.dtcErrs.length = 14)
    (h : scanDtc st polls = some (st', true)) :
    ∀ i, i < 14 →
      (st'.dlcData.getD (i + 2) 0 &&& 0xf ≠ 0 →
        st'.dtcErrs.getD i 0 = if i * 2 + 1 = 23 then 22 else i * 2 + 1) ∧
      (st'.dlcData.getD (i + 2) 0 &&& 0xf = 0 →
        st'.dlcData.getD (i + 2) 0 >>> 4 ≠ 0 →
        st'.dtcErrs.getD i 0 = i * 2) ∧
      (st'.dlcData.getD (i + 2) 0 &&& 0xf = 0 →
        st'.dlcData.getD (i + 2) 0 >>> 4 = 0 →
        st'.dtcErrs.getD i 0 = st.dtcErrs.getD i 0) := by
  simp only [scanDtc] at h
  split at h
  · simp at h
  · simp at h
  next s hs =>
    simp only [Option.some.injEq, Prod.mk.injEq] at h
    obtain ⟨h1, -⟩ := h
    obtain ⟨data, -, -, hcase⟩ := sendcmd_cases hs
    rcases hcase with ⟨-, -, hseq⟩ | ⟨hfalse, -, -⟩
    · have hslen : s.dtcErrs.length = 14 := by
        rw [hseq]
        simpa using hlen
      have hserrs : s.dtcErrs = st.dtcErrs := by rw [hseq]
      subst h1
      obtain ⟨hd, -, hg⟩ := dtcFoldAux 14 s hslen
      intro i hi
      have hgi := hg i hi
      rw [if_pos hi] at hgi
      rw [hd, hgi, hserrs]
      simp only [dtcWrite]
      refine ⟨fun hlow => ?_, fun hlow hhigh => ?_, fun hlow hhigh => ?_⟩
      · rw [if_pos hlow]
        by_cases h23 : i * 2 + 1 = 23
        · simp [h23]
        · simp only [if_neg h23]
          rw [if_neg (by omega)]
      · rw [if_neg (by simpa using hlow), if_pos hhigh]
      · rw [if_neg (by simpa using hlow), if_neg (by simpa using hhigh)]
    · cases hfalse

/-- A DTC reply whose payload byte 12 has only its high nibble set
(signaling computed code 24); trailing checksum `mkcrc` of the first 18
bytes. -/
def pollsDtc24 : List (Option Nat) :=
  ((List.replicate 14 0 ++ [0x10] ++ List.replicate 3 0) ++ [240]).map some

/-- The session state after `scanDtc initECU pollsDtc24`. -/
def sDtc24 : ECU :=
  match scanDtc initECU pollsDtc24 with
  | some r => r.1
  | none => initECU

/-- Counterexample to C2 as stated: with byte index 12's high nibble set, the
signaled code 24 is stored as 24, not remapped to 23. -/
theorem C2_dtc_remap_counterexample :
    scanDtc initECU pollsDtc24 = some (sDtc24, true) ∧
    sDtc24.dlcData.getD 14 0 >>> 4 ≠ 0 ∧
    sDtc24.dtcErrs.getD 12 0 = 24 ∧ (24 : Nat) ≠ 23 :=
  ⟨rfl, by decide, by decide, by decide⟩

/-- A DTC reply whose payload byte 11 has its low nibble set (signaling
computed code 23). -/
def pollsC2w : List (Option Nat) :=
  (([0, 0] ++ List.replicate 11 0 ++ [1] ++ List.replicate 4 0) ++ [255]).map some

/-- The session state after `scanDtc initECU pollsC2w`. -/
def sC2w : ECU :=
  match scanDtc initECU pollsC2w with
  | some r => r.1
  | none => initECU

/-- Witness for C2's amended statement: signaled code 23 is stored as 22. -/
theorem C2_dtc_remap_witness : sC2w.dtcErrs.getD 11 0 = 22 := by
  have h := (C2_dtc_remap initECU pollsC2w sC2w (by decide) (by rfl) 11
    (by decide)).1 (by decide)
  simpa using h

/-- A DTC reply whose payload byte 1 is `0x11`: both nibbles set, signaling
codes 2 and 3. -/
def pollsC5 : List (Option Nat) :=
  (([0, 0, 0, 0x11] ++ List.replicate 14 0) ++ [239]).map some

/-- The session state after `scanDtc initECU pollsC5`. -/
def sC5 : ECU :=
  match scanDtc initECU pollsC5 with
  | some r => r.1
  | none => initECU

/-- C5 failing input, evaluated: byte 1 = `0x11` signals codes 2 and 3, but
the loop writes both into `dtcErrs[1]` (index = byte index, not list end)
while incrementing `dtcLen` twice, so `dtcLen = 2` yet the first two entries
read `[0, 3]` — code 2 is overwritten and lost, and entry 0 is a stale
initial value, contradicting append semantics. -/
theorem C5_dtc_list_bug :
    scanDtc initECU pollsC5 = some (sC5, true) ∧
    sC5.dlcData.getD 3 0 = 0x11 ∧
    sC5.dtcLen = 2 ∧
    sC5.dtcErrs.take 2 = [0, 3] ∧
    2 ∉ sC5.dtcErrs :=
  ⟨rfl, by decide, by decide, by decide, by decide⟩

theorem rx_u16_eq (buf : List Nat) (off : Nat)
    (hhi : buf.getD off 0 < 256) (hlo : buf.getD (off + 1) 0 < 256) :
    rx_u16 buf off = buf.getD off 0 * 256 + buf.getD (off + 1) 0 := by
  unfold rx_u16
  rw [Nat.shiftLeft_eq]
  have h := Nat.mul_add_lt_is_or (i := 8) hlo (buf.getD off 0)
  rw [Nat.mul_comm (2 ^ 8)] at h
  have h8 : (2 : Nat) ^ 8 = 256 := by norm_num
  rw [h8] at h
  rw [← h]
  exact Nat.mod_eq_of_lt (by omega)

theorem ratTrunc_eq_floor (q : ℚ) (h : 0 ≤ q) : ratTrunc q = ⌊q⌋ := by
  rw [ratTrunc, Rat.floor_def]
  exact Int.tdiv_eq_ediv (Rat.num_nonneg.mpr h) (Int.ofNat_nonneg _)

theorem ratTrunc_intCast (n : Int) : ratTrunc (n : ℚ) = n := by
  rw [ratTrunc]
  simp [Rat.num_intCast, Rat.den_intCast]

theorem ratTrunc_div_nat (a b : Nat) :
    ratTrunc ((a : ℚ) / (b : ℚ)) = ((a / b : Nat) : Int) := by
  have h0 : 0 ≤ (a : ℚ) / (b : ℚ) := by positivity
  rw [ratTrunc_eq_floor _ h0]
  have hcast : ((a : ℚ)) = (((a : ℤ) : ℚ)) := by push_cast; rfl
  rw [hcast, Rat.floor_intCast_div_natCast, Int.natCast_div]

/-- C6: row-0x00 decoding reads the big-endian word at payload offset 0
(buffer indices 2 and 3) and stores `RPM = 1875000 / (r + 1)` (with `obd_sel
= 1`, as the program is constructed), clamped below at 0; raw word 0 gives
1875000 and raw word 999 gives 1875. -/
theorem C6_rpm_decode (s : ECU) (hsel : s.obd_sel = 1)
    (hhi : s.dlcData.getD 2 0 < 256) (hlo : s.dlcData.getD 3 0 < 256) :
    rx_u16 s.dlcData (RPL_OFFSET + HOBD_OFF_RPM) =
      s.dlcData.getD 2 0 * 256 + s.dlcData.getD 3 0 ∧
    (decodeRow1 s).rpm =
      ((1875000 / (rx_u16 s.dlcData (RPL_OFFSET + HOBD_OFF_RPM) + 1) : Nat) : Int) ∧
    0 ≤ (decodeRow1 s).rpm ∧
    (rx_u16 s.dlcData (RPL_OFFSET + HOBD_OFF_RPM) = 0 →
      (decodeRow1 s).rpm = 1875000) ∧
    (rx_u16 s.dlcData (RPL_OFFSET + HOBD_OFF_RPM) = 999 →
      (decodeRow1 s).rpm = 1875) := by
  have hoff : RPL_OFFSET + HOBD_OFF_RPM = 2 := rfl
  have h1 : rx_u16 s.dlcData (RPL_OFFSET + HOBD_OFF_RPM) =
      s.dlcData.getD 2 0 * 256 + s.dlcData.getD 3 0 := by
    rw [hoff]
    have := rx_u16_eq s.dlcData 2 hhi (by simpa using hlo)
    simpa using this
  have hrpm : (decodeRow1 s).rpm =
      ((1875000 / (rx_u16 s.dlcData (RPL_OFFSET + HOBD_OFF_RPM) + 1) : Nat) : Int) := by
    simp only [decodeRow1, hsel, if_pos]
    have hq : (1875000 : ℚ) / ((rx_u16 s.dlcData (RPL_OFFSET + HOBD_OFF_RPM) : ℚ) + 1) =
        ((1875000 : Nat) : ℚ) /
          (((rx_u16 s.dlcData (RPL_OFFSET + HOBD_OFF_RPM) + 1 : Nat) : ℚ)) := by
      push_cast
      ring
    rw [hq, ratTrunc_div_nat]
    rw [if_neg (not_lt.mpr (Int.natCast_nonneg _))]
  refine ⟨h1, hrpm, ?_, ?_, ?_⟩
  · rw [hrpm]
    exact Int.natCast_nonneg _
  · intro hr
    rw [hrpm, hr]
    norm_num
  · intro hr
    rw [hrpm, hr]
    norm_num

/-- A row-0x00 reply whose RPM word is 999 (`0x03, 0xE7` at buffer indices
2 and 3). -/
def sRpm999 : ECU := { initECU with dlcData := [0, 0, 3, 231] ++ List.replicate 16 0 }

/-- Witness for C6 at raw word 999: decoded RPM is 1875000/1000 = 1875. -/
theorem C6_rpm_decode_witness : (decodeRow1 sRpm999).rpm = 1875 :=
  (C6_rpm_decode sRpm999 (by rfl) (by decide) (by decide)).2.2.2.2 (by decide)

/-- C7: row-0x10 decoding stores `tps = (raw - 24) / 2` (C truncating
integer division on the byte at payload offset 4, buffer index 6) and
`maps`/`baro` as the `conv_kpa` value `raw * 0.716 - 5.0` of the bytes at
payload offsets 2 and 3 (buffer indices 4 and 5), truncated into the `int`
fields; raw 24 gives TPS 0 and raw 0 gives MAP -5.0 kPa exactly. -/
theorem C7_tps_map_decode (s : ECU) :
    conv_kpa 0 = -5 ∧
    (decodeRow2 s).tps = ((s.dlcData.getD 6 0 : Int) - 24).tdiv 2 ∧
    (decodeRow2 s).maps = ratTrunc (conv_kpa (s.dlcData.getD 4 0)) ∧
    (decodeRow2 s).baro = ratTrunc (conv_kpa (s.dlcData.getD 5 0)) ∧
    (s.dlcData.getD 6 0 = 24 → (decodeRow2 s).tps = 0) ∧
    (s.dlcData.getD 4 0 = 0 → (decodeRow2 s).maps = -5) := by
  have hk : conv_kpa 0 = -5 := by
    norm_num [conv_kpa]
  have htps : (decodeRow2 s).tps = ((s.dlcData.getD 6 0 : Int) - 24).tdiv 2 := rfl
  have hmaps : (decodeRow2 s).maps = ratTrunc (conv_kpa (s.dlcData.getD 4 0)) := rfl
  refine ⟨hk, htps, hmaps, rfl, ?_, ?_⟩
  · intro h24
    rw [htps, h24]
    rfl
  · intro h0
    rw [hmaps, h0, hk]
    have : ((-5 : Int) : ℚ) = -5 := by push_cast; ring
    rw [← this, ratTrunc_intCast]

/-- A row-0x10 reply with raw TPS byte 24 (buffer index 6) and raw MAP byte
0 (buffer index 4). -/
def sTps24 : ECU :=
  { initECU with dlcData := [0, 0, 0, 0, 0, 0, 24] ++ List.replicate 13 0 }

/-- Witness for C7: raw 24 decodes to TPS 0 and raw 0 to MAP -5. -/
theorem C7_tps_map_decode_witness :
    (decodeRow2 sTps24).tps = 0 ∧ (decodeRow2 sTps24).maps = -5 :=
  ⟨(C7_tps_map_decode sTps24).2.2.2.2.1 (by decide),
   (C7_tps_map_decode sTps24).2.2.2.2.2 (by decide)⟩

/-- `sendcmd` only rewrites the receive buffer, the error log and the wire
log: every terminating run leaves every sensor field, `obd_sel`, `dtcErrs`,
`dtcLen` and `dlctmo` unchanged (the timeout branch being unreachable). -/
theorem sendcmd_shape {st : ECU} {ecmd : EcuCmd} {polls : List (Option Nat)}
    {st' : ECU} {b : Bool} (h : sendcmd st ecmd polls = some (st', b)) :
    ∃ D E,
      st' =
        { st with dlcData := D, Errs := E, txLog := st.txLog ++ [txFrame ecmd] } := by
  obtain ⟨data, -, -, hcase⟩ := sendcmd_cases h
  rcases hcase with ⟨-, -, h3⟩ | ⟨-, -, h3⟩ <;> exact ⟨_, _, h3⟩

/-- C9: if the k-th of the four fixed row transactions fails, `readLiveData`
returns failure immediately: only the first k command frames were written to
the wire, every snapshot field of row k or later (and the derived `maf`,
computed only after all four rows succeed) retains its previous value, and
every field of a row before k holds the value decoded from that row's fresh
reply. -/
theorem C9_partial_failure :
    (∀ (st : ECU) (p1 p2 p3 p4 : List (Option Nat)) (s1 : ECU),
      sendcmd st (rowCmd HOBD_OFF_RPM) p1 = some (s1, false) →
        readLiveData st p1 p2 p3 p4 = some (s1, false) ∧
        s1.txLog = st.txLog ++ [txFrame (rowCmd HOBD_OFF_RPM)] ∧
        s1.rpm = st.rpm ∧
        s1.vss = st.vss ∧
        s1.sw_aircon = st.sw_aircon ∧
        s1.sw_brake = st.sw_brake ∧
        s1.sw_starter = st.sw_starter ∧
        s1.sw_vtec = st.sw_vtec ∧
        s1.main_relay = st.main_relay ∧
        s1.cel = st.cel ∧
        s1.ect = st.ect ∧
        s1.iat = st.iat ∧
        s1.maps = st.maps ∧
        s1.baro = st.baro ∧
        s1.tps = st.tps ∧
        s1.o2 = st.o2 ∧
        s1.volt = st.volt ∧
        s1.alt_fr = st.alt_fr ∧
        s1.eld = st.eld ∧
        s1.sft = st.sft ∧
        s1.lft = st.lft ∧
        s1.inj = st.inj ∧
        s1.ign = st.ign ∧
        s1.lmt = st.lmt ∧
        s1.iacv = st.iacv ∧
        s1.knoc = st.knoc ∧
        s1.maf = st.maf) ∧
    (∀ (st : ECU) (p1 p2 p3 p4 : List (Option Nat)) (s1 s2 : ECU),
      sendcmd st (rowCmd HOBD_OFF_RPM) p1 = some (s1, true) →
      sendcmd (decodeRow1 s1) (rowCmd HOBD_OFF_ECT) p2 = some (s2, false) →
        readLiveData st p1 p2 p3 p4 = some (s2, false) ∧
        s2.txLog = st.txLog ++
          [txFrame (rowCmd HOBD_OFF_RPM), txFrame (rowCmd HOBD_OFF_ECT)] ∧
        s2.rpm = (decodeRow1 s1).rpm ∧
        s2.vss = (decodeRow1 s1).vss ∧
        s2.sw_aircon = (decodeRow1 s1).sw_aircon ∧
        s2.sw_brake = (decodeRow1 s1).sw_brake ∧
        s2.sw_starter = (decodeRow1 s1).sw_starter ∧
        s2.sw_vtec = (decodeRow1 s1).sw_vtec ∧
        s2.main_relay = (decodeRow1 s1).main_relay ∧
        s2.cel = (decodeRow1 s1).cel ∧
        s2.ect = st.ect ∧
        s2.iat = st.iat ∧
        s2.maps = st.maps ∧
        s2.baro = st.baro ∧
        s2.tps = st.tps ∧
        s2.o2 = st.o2 ∧
        s2.volt = st.volt ∧
        s2.alt_fr = st.alt_fr ∧
        s2.eld = st.eld ∧
        s2.sft = st.sft ∧
        s2.lft = st.lft ∧
        s2.inj = st.inj ∧
        s2.ign = st.ign ∧
        s2.lmt = st.lmt ∧
        s2.iacv = st.iacv ∧
        s2.knoc = st.knoc ∧
        s2.maf = st.maf) ∧
    (∀ (st : ECU) (p1 p2 p3 p4 : List (Option Nat)) (s1 s2 s3 : ECU),
      sendcmd st (rowCmd HOBD_OFF_RPM) p1 = some (s1, true) →
      sendcmd (decodeRow1 s1) (rowCmd HOBD_OFF_ECT) p2 = some (s2, true) →
      sendcmd (decodeRow2 s2) (rowCmd 0x20) p3 = some (s3, false) →
        readLiveData st p1 p2 p3 p4 = some (s3, false) ∧
        s3.txLog = st.txLog ++
          [txFrame (rowCmd HOBD_OFF_RPM), txFrame (rowCmd HOBD_OFF_ECT),
           txFrame (rowCmd 0x20)] ∧
        s3.rpm = (decodeRow1 s1).rpm ∧
        s3.vss = (decodeRow1 s1).vss ∧
        s3.sw_aircon = (decodeRow1 s1).sw_aircon ∧
        s3.sw_brake = (decodeRow1 s1).sw_brake ∧
        s3.sw_starter = (decodeRow1 s1).sw_starter ∧
        s3.sw_vtec = (decodeRow1 s1).sw_vtec ∧
        s3.main_relay = (decodeRow1 s1).main_relay ∧
        s3.cel = (decodeRow1 s1).cel ∧
        s3.ect = (decodeRow2 s2).ect ∧
        s3.iat = (decodeRow2 s2).iat ∧
        s3.maps = (decodeRow2 s2).maps ∧
        s3.baro = (decodeRow2 s2).baro ∧
        s3.tps = (decodeRow2 s2).tps ∧
        s3.o2 = (decodeRow2 s2).o2 ∧
        s3.volt = (decodeRow2 s2).volt ∧
        s3.alt_fr = (decodeRow2 s2).alt_fr ∧
        s3.eld = (decodeRow2 s2).eld ∧
        s3.sft = st.sft ∧
        s3.lft = st.lft ∧
        s3.inj = st.inj ∧
        s3.ign = st.ign ∧
        s3.lmt = st.lmt ∧
        s3.iacv = st.iacv ∧
        s3.knoc = st.knoc ∧
        s3.maf = st.maf) ∧
    (∀ (st : ECU) (p1 p2 p3 p4 : List (Option Nat)) (s1 s2 s3 s4 : ECU),
      sendcmd st (rowCmd HOBD_OFF_RPM) p1 = some (s1, true) →
      sendcmd (decodeRow1 s1) (rowCmd HOBD_OFF_ECT) p2 = some (s2, true) →
      sendcmd (decodeRow2 s2) (rowCmd 0x20) p3 = some (s3, true) →
      sendcmd (decodeRow3 s3) (rowCmd 0x30) p4 = some (s4, false) →
        readLiveData st p1 p2 p3 p4 = some (s4, false) ∧
        s4.txLog = st.txLog ++
          [txFrame (rowCmd HOBD_OFF_RPM), txFrame (rowCmd HOBD_OFF_ECT),
           txFrame (rowCmd 0x20), txFrame (rowCmd 0x30)] ∧
        s4.rpm = (decodeRow1 s1).rpm ∧
        s4.vss = (decodeRow1 s1).vss ∧
        s4.sw_aircon = (decodeRow1 s1).sw_aircon ∧
        s4.sw_brake = (decodeRow1 s1).sw_brake ∧
        s4.sw_starter = (decodeRow1 s1).sw_starter ∧
        s4.sw_vtec = (decodeRow1 s1).sw_vtec ∧
        s4.main_relay = (decodeRow1 s1).main_relay ∧
        s4.cel = (decodeRow1 s1).cel ∧
        s4.ect = (decodeRow2 s2).ect ∧
        s4.iat = (decodeRow2 s2).iat ∧
        s4.maps = (decodeRow2 s2).maps ∧
        s4.baro = (decodeRow2 s2).baro ∧
        s4.tps = (decodeRow2 s2).tps ∧
        s4.o2 = (decodeRow2 s2).o2 ∧
        s4.volt = (decodeRow2 s2).volt ∧
        s4.alt_fr = (decodeRow2 s2).alt_fr ∧
        s4.eld = (decodeRow2 s2).eld ∧
        s4.sft = (decodeRow3 s3).sft ∧
        s4.lft = (decodeRow3 s3).lft ∧
        s4.inj = (decodeRow3 s3).inj ∧
        s4.ign = (decodeRow3 s3).ign ∧
        s4.lmt = (decodeRow3 s3).lmt ∧
        s4.iacv = (decodeRow3 s3).iacv ∧
        s4.knoc = st.knoc ∧
        s4.maf = st.maf) := by
  refine ⟨?_, ?_, ?_, ?_⟩
  · intro st p1 p2 p3 p4 s1 h1
    obtain ⟨D1, E1, rfl⟩ := sendcmd_shape h1
    exact ⟨by simp only [readLiveData, h1], rfl,
      rfl, rfl, rfl, rfl, rfl, rfl, rfl, rfl, rfl, rfl, rfl, rfl, rfl, rfl, rfl, rfl, rfl, rfl, rfl, rfl, rfl, rfl, rfl, rfl, rfl⟩
  · intro st p1 p2 p3 p4 s1 s2 h1 h2
    obtain ⟨D1, E1, rfl⟩ := sendcmd_shape h1
    obtain ⟨D2, E2, rfl⟩ := sendcmd_shape h2
    exact ⟨by simp only [readLiveData, h1, h2], by simp [decodeRow1],
      rfl, rfl, rfl, rfl, rfl, rfl, rfl, rfl, rfl, rfl, rfl, rfl, rfl, rfl, rfl, rfl, rfl, rfl, rfl, rfl, rfl, rfl, rfl, rfl, rfl⟩
  · intro st p1 p2 p3 p4 s1 s2 s3 h1 h2 h3
    obtain ⟨D1, E1, rfl⟩ := sendcmd_shape h1
    obtain ⟨D2, E2, rfl⟩ := sendcmd_shape h2
    obtain ⟨D3, E3, rfl⟩ := sendcmd_shape h3
    exact ⟨by simp only [readLiveData, h1, h2, h3], by simp [decodeRow1, decodeRow2],
      rfl, rfl, rfl, rfl, rfl, rfl, rfl, rfl, rfl, rfl, rfl, rfl, rfl, rfl, rfl, rfl, rfl, rfl, rfl, rfl, rfl, rfl, rfl, rfl, rfl⟩
  · intro st p1 p2 p3 p4 s1 s2 s3 s4 h1 h2 h3 h4
    obtain ⟨D1, E1, rfl⟩ := sendcmd_shape h1
    obtain ⟨D2, E2, rfl⟩ := sendcmd_shape h2
    obtain ⟨D3, E3, rfl⟩ := sendcmd_shape h3
    obtain ⟨D4, E4, rfl⟩ := sendcmd_shape h4
    exact ⟨by simp only [readLiveData, h1, h2, h3, h4],
      by simp [decodeRow1, decodeRow2, decodeRow3],
      rfl, rfl, rfl, rfl, rfl, rfl, rfl, rfl, rfl, rfl, rfl, rfl, rfl, rfl, rfl, rfl, rfl, rfl, rfl, rfl, rfl, rfl, rfl, rfl, rfl⟩

/-- A 19-poll trace delivering an all-zero reply with valid checksum (row
transactions succeed on it). -/
def wGood : List (Option Nat) := List.replicate 19 (some 0)

/-- An 18-zeros-then-7 trace: the trailing byte 7 fails the checksum check. -/
def wBad : List (Option Nat) := List.replicate 18 (some 0) ++ [some 7]

/-- State after row 1 fails on `wBad` from the initial state. -/
def w1b : ECU :=
  match sendcmd initECU (rowCmd HOBD_OFF_RPM) wBad with
  | some r => r.1
  | none => initECU

/-- State after row 1 succeeds on `wGood` from the initial state. -/
def w1 : ECU :=
  match sendcmd initECU (rowCmd HOBD_OFF_RPM) wGood with
  | some r => r.1
  | none => initECU

/-- State after row 2 fails on `wBad` following a successful row 1. -/
def w2b : ECU :=
  match sendcmd (decodeRow1 w1) (rowCmd HOBD_OFF_ECT) wBad with
  | some r => r.1
  | none => initECU

/-- State after row 2 succeeds on `wGood` following a successful row 1. -/
def w2 : ECU :=
  match sendcmd (decodeRow1 w1) (rowCmd HOBD_OFF_ECT) wGood with
  | some r => r.1
  | none => initECU

/-- State after row 3 fails on `wBad` following successful rows 1-2. -/
def w3b : ECU :=
  match sendcmd (decodeRow2 w2) (rowCmd 0x20) wBad with
  | some r => r.1
  | none => initECU

/-- State after row 3 succeeds on `wGood` following successful rows 1-2. -/
def w3 : ECU :=
  match sendcmd (decodeRow2 w2) (rowCmd 0x20) wGood with
  | some r => r.1
  | none => initECU

/-- State after row 4 fails on `wBad` following successful rows 1-3. -/
def w4b : ECU :=
  match sendcmd (decodeRow3 w3) (rowCmd 0x30) wBad with
  | some r => r.1
  | none => initECU

/-- Witness for C9 at concrete runs failing at each of the four rows. -/
theorem C9_partial_failure_witness :
    (readLiveData initECU wBad wGood wGood wGood = some (w1b, false) ∧
      w1b.rpm = initECU.rpm ∧ w1b.maf = initECU.maf) ∧
    (readLiveData initECU wGood wBad wGood wGood = some (w2b, false) ∧
      w2b.rpm = (decodeRow1 w1).rpm ∧ w2b.ect = initECU.ect) ∧
    (readLiveData initECU wGood wGood wBad wGood = some (w3b, false) ∧
      w3b.ect = (decodeRow2 w2).ect ∧ w3b.sft = initECU.sft) ∧
    (readLiveData initECU wGood wGood wGood wBad = some (w4b, false) ∧
      w4b.sft = (decodeRow3 w3).sft ∧ w4b.knoc = initECU.knoc ∧
      w4b.maf = initECU.maf) := by
  refine ⟨?_, ?_, ?_, ?_⟩
  · obtain ⟨ha, -, hrpm, -, -, -, -, -, -, -, -, -, -, -, -, -, -, -, -, -, -, -, -, -, -, -, hmaf⟩ :=
      C9_partial_failure.1 initECU wBad wGood wGood wGood w1b (by rfl)
    exact ⟨ha, hrpm, hmaf⟩
  · obtain ⟨ha, -, hrpm, -, -, -, -, -, -, -, hect, -, -, -, -, -, -, -, -, -, -, -, -, -, -, -, -⟩ :=
      C9_partial_failure.2.1 initECU wGood wBad wGood wGood w1 w2b (by rfl) (by rfl)
    exact ⟨ha, hrpm, hect⟩
  · obtain ⟨ha, -, -, -, -, -, -, -, -, -, hect, -, -, -, -, -, -, -, -, hsft, -, -, -, -, -, -, -⟩ :=
      C9_partial_failure.2.2.1 initECU wGood wGood wBad wGood w1 w2 w3b
        (by rfl) (by rfl) (by rfl)
    exact ⟨ha, hect, hsft⟩
  · obtain ⟨ha, -, -, -, -, -, -, -, -, -, -, -, -, -, -, -, -, -, -, hsft, -, -, -, -, -, hkn, hmaf⟩ :=
      C9_partial_failure.2.2.2 initECU wGood wGood wGood wBad w1 w2 w3 w4b
        (by rfl) (by rfl) (by rfl) (by rfl)
    exact ⟨ha, hsft, hkn, hmaf⟩
